import Mathlib

/-!
A verification development for the PaperQuery server: a shallow embedding of
the job-processing pipeline in `server/routes.ts`, the question sorting and
filtering in `server/services/pdfGenerator.ts`, and the in-memory store in
`server/storage.ts`, together with theorems settling the specification's
claims about them.

Modelling conventions:
* JavaScript nullable values (`string | null | undefined`) are `Option _`.
* The pervasive `x || fallback` normalisation is made explicit: `jsStrOrNone`,
  `jsIntOrNone` and `jsBoolOrNone` model `x || null`, which collapses every
  falsy value (`null`, `undefined`, `""`, `0`, `false`) to `null`.
* JavaScript numbers that arise here are integers (years, marks, progress
  percentages); they are modelled as `Int`/`Nat`, with `none : Option Int`
  playing the role of `NaN` where `parseInt` can fail.
* `randomUUID()` is modelled by caller-supplied identifier strings or an
  identifier generator `Nat → String`; the ids are opaque and only compared.
* Wall-clock timestamps (`createdAt`, `updatedAt`) and free-form JSON columns
  that no claim mentions (`metadata`, `diagramData`, `configuration`) are
  omitted from the row structures.
-/

/-- JavaScript `x || null` on a nullable string: `null`, `undefined` and the
empty string all collapse to `null`. -/
def jsStrOrNone : Option String → Option String
  | none => none
  | some s => if s = "" then none else some s

/-- JavaScript `x || null` on a nullable number: `0` is falsy and collapses
to `null`. -/
def jsIntOrNone : Option Int → Option Int
  | none => none
  | some n => if n = 0 then none else some n

/-- JavaScript `x || null` on a nullable boolean: `false` is falsy and
collapses to `null`. -/
def jsBoolOrNone : Option Bool → Option Bool
  | none => none
  | some b => if b then some true else none

/-- Whitespace characters recognised while modelling JavaScript's
`String.prototype.trim` and the leading-space skipping of `parseInt`. -/
def isJsSpace (c : Char) : Bool :=
  c == ' ' || c == '\t' || c == '\n' || c == '\r'

/-- Length of a string after trimming leading and trailing whitespace,
modelling JavaScript `s.trim().length`. -/
def trimmedLength (s : String) : Nat :=
  (((s.data.dropWhile isJsSpace).reverse.dropWhile isJsSpace).reverse).length

/-- Leading run of decimal digits. -/
def digitRun (cs : List Char) : List Char := cs.takeWhile Char.isDigit

/-- Numeric value of a list of decimal digits. -/
def digitsVal (ds : List Char) : Nat :=
  ds.foldl (fun acc c => acc * 10 + (c.toNat - 48)) 0

/-- JavaScript `parseInt(s)` (radix 10): skip leading whitespace, accept an
optional sign, then read the longest leading run of decimal digits; the
result is `none` (JavaScript `NaN`) when that run is empty. -/
def jsParseInt (s : String) : Option Int :=
  match s.data.dropWhile isJsSpace with
  | '-' :: rest =>
      if digitRun rest = [] then none else some (-(digitsVal (digitRun rest) : Int))
  | '+' :: rest =>
      if digitRun rest = [] then none else some ((digitsVal (digitRun rest) : Int))
  | cs =>
      if digitRun cs = [] then none else some ((digitsVal (digitRun cs) : Int))

/-- Does `cs` start with the pattern `ps`? -/
def listStarts : List Char → List Char → Bool
  | _, [] => true
  | [], _ :: _ => false
  | c :: cs, p :: ps => c == p && listStarts cs ps

/-- Does `cs` contain the pattern `pat` as a contiguous run? -/
def listHasSub (pat : List Char) : List Char → Bool
  | [] => listStarts [] pat
  | c :: t => listStarts (c :: t) pat || listHasSub pat t

/-- JavaScript `s.includes(pat)`. -/
def strContainsSub (s pat : String) : Bool := listHasSub pat.data s.data

/-- Row of the `questions` table (`shared/schema.ts`); timestamps and the
`diagramData` JSON column (never populated by the pipeline) are omitted. -/
structure Question where
  id : String
  documentId : Option String
  topicId : Option String
  questionText : String
  questionNumber : Option String
  paperYear : Option String
  paperSession : Option String
  hasVectorDiagram : Option Bool
  difficulty : Option String
  marks : Option Int
  deriving DecidableEq

/-- Row of the `topics` table; timestamps omitted. -/
structure Topic where
  id : String
  documentId : Option String
  subject : String
  mainTopic : String
  subtopic : Option String
  description : Option String
  deriving DecidableEq

/-- The `difficultyOrder` record of `sortQuestions` in `pdfGenerator.ts`:
`{ 'easy': 1, 'medium': 2, 'hard': 3 }`; indexing with any other key gives
`undefined`, modelled as `none`. -/
def difficultyOrder (s : String) : Option Int :=
  if s = "easy" then some 1
  else if s = "medium" then some 2
  else if s = "hard" then some 3
  else none

/-- The comparator key `difficultyOrder[a.difficulty || 'medium'] || 2` of
`sortQuestions`: a missing or empty difficulty falls back to `'medium'`, an
unrecognised one to `2` (`undefined || 2`).  The inner zero test mirrors the
falsiness check of `|| 2`; it never fires because the record's values are
1, 2 and 3. -/
def difficultyRank (q : Question) : Int :=
  let key : String :=
    match q.difficulty with
    | none => "medium"
    | some s => if s = "" then "medium" else s
  match difficultyOrder key with
  | none => 2
  | some v => if v = 0 then 2 else v

/-- The comparator key `parseInt(a.paperYear || '0')` of `sortQuestions`;
`none` is `NaN`. -/
def yearNum (q : Question) : Option Int :=
  jsParseInt (match q.paperYear with
    | none => "0"
    | some s => if s = "" then "0" else s)

/-- Subtraction of JavaScript numbers where `none` is `NaN` (absorbing). -/
def jsSub : Option Int → Option Int → Option Int
  | some x, some y => some (x - y)
  | _, _ => none

/-- ECMAScript `SortCompare` semantics: a comparator result of `NaN` is
coerced to `+0`, and a stable sort keeps `a` no later than `b` exactly when
the coerced comparator value on `(a, b)` is `≤ 0`. -/
def keepsOrder : Option Int → Bool
  | none => true
  | some v => v ≤ 0

/-- JavaScript `Array.prototype.sort` with comparator `cmp` is a stable
comparison sort; it is modelled by the stable `List.insertionSort` over the
relation "the comparator keeps `a` no later than `b`". -/
def jsSort {α : Type} (cmp : α → α → Option Int) (l : List α) : List α :=
  List.insertionSort (fun a b => keepsOrder (cmp a b) = true) l

/-- The comparator of the `'difficulty'` branch of `sortQuestions`. -/
def cmpDifficulty (a b : Question) : Option Int :=
  some (difficultyRank a - difficultyRank b)

/-- The comparator of the `'year_newest'` branch of `sortQuestions`:
`parseInt(b.paperYear || '0') - parseInt(a.paperYear || '0')`. -/
def cmpYearNewest (a b : Question) : Option Int :=
  jsSub (yearNum b) (yearNum a)

/-- The comparator of the `'year_oldest'` branch of `sortQuestions`. -/
def cmpYearOldest (a b : Question) : Option Int :=
  jsSub (yearNum a) (yearNum b)

/-- The `sortQuestions` method of `pdfGenerator.ts` (the `switch` on
`sortBy`; the default branch returns the copied input unchanged). -/
def sortQuestions (questions : List Question) (sortBy : String) : List Question :=
  if sortBy = "difficulty" then jsSort cmpDifficulty questions
  else if sortBy = "year_newest" then jsSort cmpYearNewest questions
  else if sortBy = "year_oldest" then jsSort cmpYearOldest questions
  else questions

/-- The rendering configuration of `pdfGenerator.ts`; the `sortBy` and
`layout` string unions are modelled as strings, matching the string
`switch`. -/
structure PdfGenerationConfig where
  includeQuestionText : Bool
  includeVectorDiagrams : Bool
  includeAnswerSchemes : Bool
  includeSourceInfo : Bool
  sortBy : String
  layout : String
  deriving DecidableEq

/-- JavaScript truthiness of the nullable boolean `q.hasVectorDiagram`. -/
def hasDiagram (q : Question) : Bool := q.hasVectorDiagram.getD false

/-- The `filterQuestions` method of `pdfGenerator.ts`: when
`includeVectorDiagrams` is false, drop every question whose
`hasVectorDiagram` is truthy. -/
def filterQuestions (questions : List Question) (config : PdfGenerationConfig) :
    List Question :=
  if config.includeVectorDiagrams then questions
  else questions.filter (fun q => !(hasDiagram q))

/-- Result of `generateTopicPdf`; the file path, file name and on-disk size
are file-system effects and are omitted.  `renderedQuestions` is the exact
list that `generatePdfContent` renders into the artifact, in order. -/
structure GeneratedPdfResultM where
  renderedQuestions : List Question
  questionCount : Nat
  diagramCount : Nat
  deriving DecidableEq

/-- The `generateTopicPdf` method of `pdfGenerator.ts`: sort, then filter,
then render the surviving questions in order and report
`questionCount = filteredQuestions.length` and
`diagramCount = filteredQuestions.filter(q => q.hasVectorDiagram).length`. -/
def generateTopicPdf (questions : List Question) (config : PdfGenerationConfig) :
    GeneratedPdfResultM :=
  let sortedQuestions := sortQuestions questions config.sortBy
  let filteredQuestions := filterQuestions sortedQuestions config
  { renderedQuestions := filteredQuestions
    questionCount := filteredQuestions.length
    diagramCount := (filteredQuestions.filter (fun q => hasDiagram q)).length }

/-- Ordered insertion preserves pairwise-sortedness when the relation is
total everywhere and transitive on a carrier set `S` containing the inserted
element and the list. -/
theorem pairwise_orderedInsert_of {α : Type} (r : α → α → Prop) [DecidableRel r]
    (S : List α) (htot : ∀ x y, r x y ∨ r y x)
    (htrans : ∀ x y z, x ∈ S → y ∈ S → z ∈ S → r x y → r y z → r x z)
    (a : α) (ha : a ∈ S) (l : List α) (hl : ∀ x ∈ l, x ∈ S)
    (hp : l.Pairwise r) : (List.orderedInsert r a l).Pairwise r := by
  induction l with
  | nil => simp [List.orderedInsert]
  | cons b t ih =>
    rw [List.orderedInsert]
    split
    · rename_i hab
      refine List.pairwise_cons.2 ⟨?_, hp⟩
      intro x hx
      rcases List.mem_cons.1 hx with rfl | hxt
      · exact hab
      · exact htrans a b x ha (hl b (List.mem_cons_self b t))
          (hl x (List.mem_cons_of_mem b hxt)) hab
          (List.rel_of_pairwise_cons hp hxt)
    · rename_i hab
      have hba : r b a := (htot a b).resolve_left hab
      have hpt := List.pairwise_cons.1 hp
      refine List.pairwise_cons.2 ⟨?_, ih (fun x hx => hl x (List.mem_cons_of_mem b hx)) hpt.2⟩
      intro x hx
      rcases (List.mem_orderedInsert r).1 hx with rfl | hxt
      · exact hba
      · exact hpt.1 x hxt

/-- Insertion sort produces a pairwise-sorted list when the relation is
total everywhere and transitive on a carrier set containing the input. -/
theorem pairwise_insertionSort_of {α : Type} (r : α → α → Prop) [DecidableRel r]
    (S : List α) (htot : ∀ x y, r x y ∨ r y x)
    (htrans : ∀ x y z, x ∈ S → y ∈ S → z ∈ S → r x y → r y z → r x z) :
    ∀ l : List α, (∀ x ∈ l, x ∈ S) → (List.insertionSort r l).Pairwise r := by
  intro l
  induction l with
  | nil =>
    intro _
    simp [List.insertionSort]
  | cons a t ih =>
    intro hl
    rw [List.insertionSort]
    refine pairwise_orderedInsert_of r S htot htrans a (hl a (List.mem_cons_self a t)) _
      ?_ (ih (fun x hx => hl x (List.mem_cons_of_mem a hx)))
    intro x hx
    exact hl x (List.mem_cons_of_mem a ((List.perm_insertionSort r t).mem_iff.1 hx))

/-- Whatever the `sortBy` string, `sortQuestions` permutes its input. -/
theorem sortQuestions_perm (qs : List Question) (sortBy : String) :
    (sortQuestions qs sortBy).Perm qs := by
  unfold sortQuestions jsSort
  split_ifs <;> first
    | exact List.perm_insertionSort _ _
    | exact List.Perm.refl _

/-- Ordinal difficulty mapping, stated from the claim's words: easy is 1,
medium 2, hard 3, and a missing or unrecognised difficulty counts as 2. -/
def claimDifficultyRank : Option String → Int
  | none => 2
  | some s => if s = "easy" then 1 else if s = "medium" then 2
      else if s = "hard" then 3 else 2

/-- The code's comparator key agrees with the claim's ordinal mapping on
every question. -/
theorem difficultyRank_eq_claim (q : Question) :
    difficultyRank q = claimDifficultyRank q.difficulty := by
  rcases hd : q.difficulty with _ | s
  · simp [difficultyRank, claimDifficultyRank, difficultyOrder, hd]
  · by_cases h0 : s = ""
    · subst h0
      simp [difficultyRank, claimDifficultyRank, difficultyOrder, hd]
    · by_cases h1 : s = "easy"
      · subst h1
        simp [difficultyRank, claimDifficultyRank, difficultyOrder, hd]
      · by_cases h2 : s = "medium"
        · subst h2
          simp [difficultyRank, claimDifficultyRank, difficultyOrder, hd]
        · by_cases h3 : s = "hard"
          · subst h3
            simp [difficultyRank, claimDifficultyRank, difficultyOrder, hd]
          · simp [difficultyRank, claimDifficultyRank, difficultyOrder, hd, h0, h1, h2, h3]

/-- Claim C8: for every list of questions, output assembly with
`sortBy = 'difficulty'` arranges the questions in non-decreasing order of
the ordinal mapping easy 1, medium 2, hard 3, a missing or unrecognised
difficulty counting as 2. -/
theorem sortQuestions_difficulty_sorted (qs : List Question) :
    (sortQuestions qs "difficulty").Pairwise
      (fun a b => claimDifficultyRank a.difficulty ≤ claimDifficultyRank b.difficulty) := by
  have hmain :
      (sortQuestions qs "difficulty").Pairwise
        (fun a b => keepsOrder (cmpDifficulty a b) = true) := by
    have hred : sortQuestions qs "difficulty" = jsSort cmpDifficulty qs := by
      unfold sortQuestions
      simp
    rw [hred]
    refine pairwise_insertionSort_of _ qs ?_ ?_ qs (fun x hx => hx)
    · intro x y
      simp only [cmpDifficulty, keepsOrder, decide_eq_true_eq]
      omega
    · intro x y z _ _ _ hxy hyz
      simp only [cmpDifficulty, keepsOrder, decide_eq_true_eq] at hxy hyz ⊢
      omega
  refine hmain.imp ?_
  intro a b hab
  simp only [cmpDifficulty, keepsOrder, decide_eq_true_eq] at hab
  have ha := difficultyRank_eq_claim a
  have hb := difficultyRank_eq_claim b
  omega

/-- Year key stated from the claim's words: the integer parse of
`paperYear`, with a missing or unparseable year treated as 0. -/
def claimYearKey (q : Question) : Int :=
  match q.paperYear with
  | none => 0
  | some s => (jsParseInt s).getD 0

/-- When the code's year key is a number (not `NaN`), it coincides with the
claim's year key. -/
theorem yearNum_eq_claim (q : Question) (h : (yearNum q).isSome) :
    yearNum q = some (claimYearKey q) := by
  rcases hq : q.paperYear with _ | s
  · have : yearNum q = some 0 := by
      unfold yearNum
      rw [hq]
      decide
    rw [this]
    unfold claimYearKey
    rw [hq]
  · by_cases h0 : s = ""
    · have : yearNum q = some 0 := by
        unfold yearNum
        rw [hq, h0]
        decide
      rw [this]
      unfold claimYearKey
      rw [hq, h0]
      decide
    · have hy : yearNum q = jsParseInt s := by
        unfold yearNum
        rw [hq]
        simp [h0]
      rw [hy] at h ⊢
      rcases Option.isSome_iff_exists.1 h with ⟨v, hv⟩
      unfold claimYearKey
      rw [hq]
      simp [hv]

/-- Question whose `paperYear` does not parse as an integer. -/
def qYearBad : Question :=
  { id := "q1", documentId := none, topicId := none, questionText := "Q with bad year",
    questionNumber := none, paperYear := some "unknown", paperSession := none,
    hasVectorDiagram := none, difficulty := none, marks := none }

/-- Question from paper year 2000. -/
def qYear2000 : Question :=
  { id := "q2", documentId := none, topicId := none, questionText := "Q from 2000",
    questionNumber := none, paperYear := some "2000", paperSession := none,
    hasVectorDiagram := none, difficulty := none, marks := none }

/-- Claim C2 counterexample: the claim says an unparseable `paperYear` is
treated as 0, which would place `qYear2000` (year 2000) before `qYearBad`
(year treated as 0) under `year_newest`; but `parseInt('unknown')` is `NaN`,
the comparator result is coerced to `+0`, the stable sort leaves the pair in
input order, and the output is not non-increasing in the claim's key. -/
theorem sortQuestions_year_newest_claim_false :
    ¬ (sortQuestions [qYearBad, qYear2000] "year_newest").Pairwise
        (fun a b => claimYearKey b ≤ claimYearKey a) := by decide

/-- Claim C2 as amended: a missing or empty `paperYear` is parsed as 0, but a
non-empty unparseable `paperYear` yields `NaN` and compares as equal to
everything; when every supplied question's year key is an actual number, the
`year_newest` output is non-increasing and the `year_oldest` output is
non-decreasing in the parsed year. -/
theorem sortQuestions_year_sorted (qs : List Question)
    (h : ∀ q ∈ qs, (yearNum q).isSome) :
    (sortQuestions qs "year_newest").Pairwise
      (fun a b => claimYearKey b ≤ claimYearKey a) ∧
    (sortQuestions qs "year_oldest").Pairwise
      (fun a b => claimYearKey a ≤ claimYearKey b) := by
  constructor
  · have hred : sortQuestions qs "year_newest" = jsSort cmpYearNewest qs := by
      unfold sortQuestions
      simp
    have hmain :
        (sortQuestions qs "year_newest").Pairwise
          (fun a b => keepsOrder (cmpYearNewest a b) = true) := by
      rw [hred]
      refine pairwise_insertionSort_of _ qs ?_ ?_ qs (fun x hx => hx)
      · intro x y
        rcases hx : yearNum x with _ | vx <;> rcases hy : yearNum y with _ | vy <;>
          simp [cmpYearNewest, jsSub, keepsOrder, hx, hy]
        omega
      · intro x y z hx hy hz hxy hyz
        rcases Option.isSome_iff_exists.1 (h x hx) with ⟨vx, hvx⟩
        rcases Option.isSome_iff_exists.1 (h y hy) with ⟨vy, hvy⟩
        rcases Option.isSome_iff_exists.1 (h z hz) with ⟨vz, hvz⟩
        simp [cmpYearNewest, jsSub, keepsOrder, hvx, hvy, hvz] at hxy hyz ⊢
        omega
    refine hmain.imp_of_mem ?_
    intro a b hma hmb hab
    have hqa : a ∈ qs := (sortQuestions_perm qs "year_newest").mem_iff.1 hma
    have hqb : b ∈ qs := (sortQuestions_perm qs "year_newest").mem_iff.1 hmb
    have hca := yearNum_eq_claim a (h a hqa)
    have hcb := yearNum_eq_claim b (h b hqb)
    simp [cmpYearNewest, jsSub, keepsOrder, hca, hcb] at hab
    omega
  · have hred : sortQuestions qs "year_oldest" = jsSort cmpYearOldest qs := by
      unfold sortQuestions
      simp
    have hmain :
        (sortQuestions qs "year_oldest").Pairwise
          (fun a b => keepsOrder (cmpYearOldest a b) = true) := by
      rw [hred]
      refine pairwise_insertionSort_of _ qs ?_ ?_ qs (fun x hx => hx)
      · intro x y
        rcases hx : yearNum x with _ | vx <;> rcases hy : yearNum y with _ | vy <;>
          simp [cmpYearOldest, jsSub, keepsOrder, hx, hy]
        omega
      · intro x y z hx hy hz hxy hyz
        rcases Option.isSome_iff_exists.1 (h x hx) with ⟨vx, hvx⟩
        rcases Option.isSome_iff_exists.1 (h y hy) with ⟨vy, hvy⟩
        rcases Option.isSome_iff_exists.1 (h z hz) with ⟨vz, hvz⟩
        simp [cmpYearOldest, jsSub, keepsOrder, hvx, hvy, hvz] at hxy hyz ⊢
        omega
    refine hmain.imp_of_mem ?_
    intro a b hma hmb hab
    have hqa : a ∈ qs := (sortQuestions_perm qs "year_oldest").mem_iff.1 hma
    have hqb : b ∈ qs := (sortQuestions_perm qs "year_oldest").mem_iff.1 hmb
    have hca := yearNum_eq_claim a (h a hqa)
    have hcb := yearNum_eq_claim b (h b hqb)
    simp [cmpYearOldest, jsSub, keepsOrder, hca, hcb] at hab
    omega

/-- Question from paper year 2019. -/
def qYear2019 : Question :=
  { id := "q3", documentId := none, topicId := none, questionText := "Q from 2019",
    questionNumber := none, paperYear := some "2019", paperSession := none,
    hasVectorDiagram := none, difficulty := none, marks := none }

/-- Question with no recorded paper year. -/
def qYearMissing : Question :=
  { id := "q4", documentId := none, topicId := none, questionText := "Q without year",
    questionNumber := none, paperYear := none, paperSession := none,
    hasVectorDiagram := none, difficulty := none, marks := none }

/-- Witness for the amended claim C2 at a concrete list whose years all
parse (a missing year parses as 0). -/
theorem sortQuestions_year_sorted_witness :
    (sortQuestions [qYear2000, qYear2019, qYearMissing] "year_newest").Pairwise
      (fun a b => claimYearKey b ≤ claimYearKey a) ∧
    (sortQuestions [qYear2000, qYear2019, qYearMissing] "year_oldest").Pairwise
      (fun a b => claimYearKey a ≤ claimYearKey b) :=
  sortQuestions_year_sorted [qYear2000, qYear2019, qYearMissing] (by decide)

/-- Claim C6: with `includeVectorDiagrams = false` no diagram-bearing
question reaches the rendered output, `questionCount` is the number of input
questions without a diagram, and `diagramCount` is 0; with
`includeVectorDiagrams = true` every input question is retained. -/
theorem generateTopicPdf_diagram_filter (qs : List Question)
    (config : PdfGenerationConfig) :
    (config.includeVectorDiagrams = false →
      (∀ q ∈ (generateTopicPdf qs config).renderedQuestions,
          q.hasVectorDiagram ≠ some true) ∧
      (generateTopicPdf qs config).questionCount
          = (qs.filter (fun q => !(hasDiagram q))).length ∧
      (generateTopicPdf qs config).diagramCount = 0) ∧
    (config.includeVectorDiagrams = true →
      ∀ q ∈ qs, q ∈ (generateTopicPdf qs config).renderedQuestions) := by
  constructor
  · intro hfalse
    have hfilter : filterQuestions (sortQuestions qs config.sortBy) config
        = (sortQuestions qs config.sortBy).filter (fun q => !(hasDiagram q)) := by
      unfold filterQuestions
      rw [hfalse]
      simp
    refine ⟨?_, ?_, ?_⟩
    · intro q hq
      simp only [generateTopicPdf, hfilter] at hq
      have hnd := (List.mem_filter.1 hq).2
      intro hcontra
      simp [hasDiagram, hcontra] at hnd
    · simp only [generateTopicPdf, hfilter]
      exact ((sortQuestions_perm qs config.sortBy).filter _).length_eq
    · simp only [generateTopicPdf, hfilter]
      rw [List.filter_filter]
      have hconst : ∀ q : Question, (hasDiagram q && !(hasDiagram q)) = false := by
        intro q
        cases hasDiagram q <;> rfl
      simp [hconst]
  · intro htrue q hq
    have hsorted : q ∈ sortQuestions qs config.sortBy :=
      (sortQuestions_perm qs config.sortBy).mem_iff.2 hq
    simp only [generateTopicPdf]
    unfold filterQuestions
    rw [htrue]
    simpa using hsorted

/-- Question with a given id and diagram flag, all other columns empty. -/
def plainQuestion (id : String) (diagram : Option Bool) : Question :=
  { id, documentId := none, topicId := none, questionText := "Demo question",
    questionNumber := none, paperYear := none, paperSession := none,
    hasVectorDiagram := diagram, difficulty := none, marks := none }

/-- Five questions, two of which carry a vector diagram (the spec's
generate-pdf scenario). -/
def demoFive : List Question :=
  [plainQuestion "a" none, plainQuestion "b" (some true),
   plainQuestion "c" (some false), plainQuestion "d" (some true),
   plainQuestion "e" none]

/-- Configuration with vector diagrams disabled. -/
def cfgNoDiagrams : PdfGenerationConfig :=
  { includeQuestionText := true, includeVectorDiagrams := false,
    includeAnswerSchemes := false, includeSourceInfo := true,
    sortBy := "difficulty", layout := "standard" }

/-- Witness for claim C6: on five questions with two diagrams and diagrams
disabled, the output renders no diagram-bearing question, counts 3
questions, and reports 0 diagrams. -/
theorem generateTopicPdf_diagram_filter_witness :
    (∀ q ∈ (generateTopicPdf demoFive cfgNoDiagrams).renderedQuestions,
        q.hasVectorDiagram ≠ some true) ∧
    (generateTopicPdf demoFive cfgNoDiagrams).questionCount = 3 ∧
    (generateTopicPdf demoFive cfgNoDiagrams).diagramCount = 0 := by
  have h := (generateTopicPdf_diagram_filter demoFive cfgNoDiagrams).1 rfl
  exact ⟨h.1, h.2.1.trans (by decide), h.2.2⟩

/-- The `ExtractedQuestion` interface of `services/openai.ts` (JSON returned
by the Categorization Service for a past paper). -/
structure ExtractedQuestion where
  questionText : String
  questionNumber : String
  topicMatch : String
  subtopicMatch : Option String
  difficulty : String
  marks : Option Int
  hasVectorDiagram : Bool
  deriving DecidableEq

/-- JavaScript truthiness of the optional string `question.subtopicMatch`:
both `undefined` and `""` are falsy. -/
def jsTruthyOptStr : Option String → Bool
  | none => false
  | some s => !(s == "")

/-- The topic lookup shared by `processPastPapersAsync` and
`processDocumentAsync` in `routes.ts`:
`availableTopics.find(t => t.mainTopic === question.topicMatch &&
(!question.subtopicMatch || t.subtopic === question.subtopicMatch))`. -/
def findMatchingTopic (availableTopics : List Topic) (q : ExtractedQuestion) :
    Option Topic :=
  availableTopics.find? (fun t =>
    t.mainTopic == q.topicMatch &&
      (!(jsTruthyOptStr q.subtopicMatch) || t.subtopic == q.subtopicMatch))

/-- First run of four consecutive decimal digits in a character list, as
matched by the regular expression `/(\d{4})/`. -/
def firstFourDigitRun : List Char → Option Nat
  | c1 :: c2 :: c3 :: c4 :: rest =>
      if c1.isDigit && c2.isDigit && c3.isDigit && c4.isDigit then
        some (digitsVal [c1, c2, c3, c4])
      else firstFourDigitRun (c2 :: c3 :: c4 :: rest)
  | _ => none

/-- The `extractYearFromFilename` helper of `routes.ts`: match `/(\d{4})/`
against the filename and `parseInt` the four matched digits. -/
def extractYearFromFilename (filename : String) : Option Nat :=
  firstFourDigitRun filename.data

/-- The `extractSessionFromFilename` helper of `routes.ts`. -/
def extractSessionFromFilename (filename : String) : Option String :=
  if strContainsSub filename "_s" then some "summer"
  else if strContainsSub filename "_w" then some "winter"
  else if strContainsSub filename "_m" then some "march"
  else none

/-- Insert shape accepted by `MemStorage.createQuestion`. -/
structure InsertQuestion where
  documentId : Option String
  topicId : Option String
  questionText : String
  questionNumber : Option String
  paperYear : Option String
  paperSession : Option String
  hasVectorDiagram : Option Bool
  difficulty : Option String
  marks : Option Int
  deriving DecidableEq

/-- `MemStorage.createQuestion` of `storage.ts`: every nullable column goes
through the `x || null` normalisation. -/
def createQuestionRow (id : String) (ins : InsertQuestion) : Question :=
  { id
    documentId := jsStrOrNone ins.documentId
    topicId := jsStrOrNone ins.topicId
    questionText := ins.questionText
    questionNumber := jsStrOrNone ins.questionNumber
    paperYear := jsStrOrNone ins.paperYear
    paperSession := jsStrOrNone ins.paperSession
    hasVectorDiagram := jsBoolOrNone ins.hasVectorDiagram
    difficulty := jsStrOrNone ins.difficulty
    marks := jsIntOrNone ins.marks }

/-- The `storage.createQuestion({...})` call of the past-paper loop in
`routes.ts` (lines 634-644): year and session are scanned from the
filename, and `marks: question.marks || 1` turns a missing or zero marks
value into 1. -/
def categorizedQuestionRow (id docId filename : String) (t : Topic)
    (q : ExtractedQuestion) : Question :=
  createQuestionRow id
    { documentId := some docId
      topicId := some t.id
      questionText := q.questionText
      questionNumber := some q.questionNumber
      paperYear := (extractYearFromFilename filename).map (fun n => toString n)
      paperSession := extractSessionFromFilename filename
      hasVectorDiagram := some q.hasVectorDiagram
      difficulty := some q.difficulty
      marks := some (match q.marks with | none => 1 | some m => if m = 0 then 1 else m) }

/-- Per-question persistence step of the past-paper loop: a `Question` row
is created exactly when `findMatchingTopic` finds a topic; otherwise the
question is dropped. -/
def saveCategorizedQuestion (topics : List Topic) (id docId filename : String)
    (q : ExtractedQuestion) : Option Question :=
  (findMatchingTopic topics q).map (fun t => categorizedQuestionRow id docId filename t q)

/-- Bool-valued check that, scanning `l` with the already-seen rows `seen`,
every row with a non-null subtopic is preceded by a row with the same
`mainTopic` and a null subtopic. -/
def mainRowsFirstFrom (seen : List Topic) : List Topic → Bool
  | [] => true
  | t :: rest =>
      (t.subtopic == (none : Option String) ||
        seen.any (fun u => u.mainTopic == t.mainTopic &&
          u.subtopic == (none : Option String))) &&
      mainRowsFirstFrom (seen ++ [t]) rest

/-- Taxonomy-shape invariant: every subtopic row is preceded by the
main-topic row of the same `mainTopic`.  The topic-building code (both in
`processSyllabusAsync` and in the syllabus branch of
`processDocumentAsync`) creates each main-topic row before its subtopic
rows, so every taxonomy it persists satisfies this. -/
def MainRowsFirst (topics : List Topic) : Prop :=
  mainRowsFirstFrom [] topics = true

/-- Splitting view of `mainRowsFirstFrom`: a non-null-subtopic row in the
scanned part has a matching null-subtopic row among the rows before it. -/
theorem mainRowsFirstFrom_split :
    ∀ (l seen : List Topic), mainRowsFirstFrom seen l = true →
      ∀ (l₁ : List Topic) (t : Topic) (l₂ : List Topic), l = l₁ ++ t :: l₂ →
        t.subtopic ≠ none →
        ∃ u ∈ seen ++ l₁, u.mainTopic = t.mainTopic ∧ u.subtopic = none := by
  intro l
  induction l with
  | nil =>
    intro seen _ l₁ t l₂ heq _
    exact absurd heq (by simp)
  | cons x rest ih =>
    intro seen h l₁ t l₂ heq hts
    rw [mainRowsFirstFrom, Bool.and_eq_true] at h
    obtain ⟨hx, hrest⟩ := h
    cases l₁ with
    | nil =>
      simp only [List.nil_append, List.cons.injEq] at heq
      obtain ⟨rfl, rfl⟩ := heq
      rw [Bool.or_eq_true] at hx
      rcases hx with hnone | hany
      · exact absurd (by simpa using hnone) hts
      · rcases List.any_eq_true.1 hany with ⟨u, hu, hcond⟩
        rw [Bool.and_eq_true] at hcond
        obtain ⟨hm, hn⟩ := hcond
        exact ⟨u, by simpa using hu, by simpa using hm, by simpa using hn⟩
    | cons y l₁' =>
      simp only [List.cons_append, List.cons.injEq] at heq
      obtain ⟨rfl, heq'⟩ := heq
      obtain ⟨u, hu, hrest'⟩ := ih (seen ++ [x]) hrest l₁' t l₂ heq' hts
      refine ⟨u, ?_, hrest'⟩
      have : seen ++ [x] ++ l₁' = seen ++ (x :: l₁') := by simp
      rw [this] at hu
      exact hu

/-- Splitting view of a successful `List.find?`: the found element is the
first satisfying one. -/
theorem find?_split {α : Type} {p : α → Bool} {l : List α} {a : α}
    (h : l.find? p = some a) :
    ∃ l₁ l₂, l = l₁ ++ a :: l₂ ∧ ∀ x ∈ l₁, p x = false := by
  induction l with
  | nil => simp at h
  | cons b t ih =>
    cases hpb : p b with
    | true =>
      have hba : b = a := by
        rw [List.find?_cons, hpb] at h
        exact Option.some.inj h
      subst hba
      exact ⟨[], t, rfl, by simp⟩
    | false =>
      have h' : t.find? p = some a := by
        rw [List.find?_cons, hpb] at h
        exact h
      obtain ⟨l₁, l₂, heq, hl⟩ := ih h'
      refine ⟨b :: l₁, l₂, by rw [heq, List.cons_append], ?_⟩
      intro x hx
      rcases List.mem_cons.1 hx with rfl | hx'
      · exact hpb
      · exact hl x hx'

/-- Main-topic row for Waves. -/
def topicWavesMain : Topic :=
  { id := "t9", documentId := none, subject := "physics", mainTopic := "Waves",
    subtopic := none, description := some "Waves and oscillations" }

/-- Extracted question whose `subtopicMatch` is the empty string. -/
def questionEmptySubMatch : ExtractedQuestion :=
  { questionText := "State the wave equation.", questionNumber := "1",
    topicMatch := "Waves", subtopicMatch := some "", difficulty := "easy",
    marks := some 2, hasVectorDiagram := false }

/-- Claim C1 counterexample: the taxonomy has no row with subtopic `""`, so
by the claim a question with `subtopicMatch = ""` must be dropped; but
`!question.subtopicMatch` treats the empty string as absent, the matcher
accepts the main-topic row, and a `Question` row is persisted. -/
theorem findMatchingTopic_claim_false :
    (∀ t ∈ [topicWavesMain],
      ¬ (t.mainTopic = questionEmptySubMatch.topicMatch ∧
         t.subtopic = questionEmptySubMatch.subtopicMatch)) ∧
    (saveCategorizedQuestion [topicWavesMain] "q1" "d1" "phys_2020_w.pdf"
        questionEmptySubMatch).isSome = true := by decide

/-- Claim C1 as amended: a persisted question's `topicId` is that of the
first matching Topic row; when `subtopicMatch` is present and non-empty the
row matches on both `mainTopic` and `subtopic`, and when `subtopicMatch` is
absent (or empty, which the code treats as absent) the row is the first one
with the right `mainTopic` — which has a null subtopic whenever main-topic
rows precede their subtopic rows, as the taxonomy-building code guarantees.
A question for which no row passes the code's test is silently dropped. -/
theorem pastPaperQuestion_matching (topics : List Topic) (q : ExtractedQuestion)
    (qid docId filename : String)
    (hinv : MainRowsFirst topics) (hids : ∀ t ∈ topics, t.id ≠ "") :
    (∀ t, findMatchingTopic topics q = some t →
      saveCategorizedQuestion topics qid docId filename q
          = some (categorizedQuestionRow qid docId filename t q) ∧
      (categorizedQuestionRow qid docId filename t q).topicId = some t.id ∧
      t ∈ topics ∧
      t.mainTopic = q.topicMatch ∧
      (jsTruthyOptStr q.subtopicMatch = true → t.subtopic = q.subtopicMatch) ∧
      (jsTruthyOptStr q.subtopicMatch = false → t.subtopic = none)) ∧
    (findMatchingTopic topics q = none →
      saveCategorizedQuestion topics qid docId filename q = none ∧
      ∀ t ∈ topics, ¬ (t.mainTopic = q.topicMatch ∧
          (jsTruthyOptStr q.subtopicMatch = false ∨ t.subtopic = q.subtopicMatch))) := by
  constructor
  · intro t ht
    have ht' : topics.find? (fun t =>
        t.mainTopic == q.topicMatch &&
          (!(jsTruthyOptStr q.subtopicMatch) || t.subtopic == q.subtopicMatch)) = some t := ht
    have hmem : t ∈ topics := List.mem_of_find?_eq_some ht'
    have hpred := List.find?_some ht'
    rw [Bool.and_eq_true] at hpred
    obtain ⟨hmbeq, hrest⟩ := hpred
    have hmm : t.mainTopic = q.topicMatch := eq_of_beq hmbeq
    refine ⟨?_, ?_, hmem, hmm, ?_, ?_⟩
    · unfold saveCategorizedQuestion
      rw [ht]
      rfl
    · simp [categorizedQuestionRow, createQuestionRow, jsStrOrNone, hids t hmem]
    · intro hj
      rw [hj] at hrest
      simp only [Bool.not_true, Bool.false_or] at hrest
      exact eq_of_beq hrest
    · intro hj
      by_contra hts
      obtain ⟨l₁, l₂, heq, hall⟩ := find?_split ht'
      obtain ⟨u, hu, hum, hun⟩ :=
        mainRowsFirstFrom_split topics [] hinv l₁ t l₂ heq hts
      have hcontr := hall u (by simpa using hu)
      simp [hum, hmm, hj] at hcontr
  · intro hnone
    have hnone' : topics.find? (fun t =>
        t.mainTopic == q.topicMatch &&
          (!(jsTruthyOptStr q.subtopicMatch) || t.subtopic == q.subtopicMatch)) = none := hnone
    constructor
    · unfold saveCategorizedQuestion
      rw [hnone]
      rfl
    · intro t ht hclaim
      obtain ⟨hm, hor⟩ := hclaim
      have hfail := List.find?_eq_none.1 hnone' t ht
      rcases hor with hor | hor
      · simp [hm, hor] at hfail
      · simp [hm, hor] at hfail

/-- Main-topic row for Forces. -/
def topicForcesMain : Topic :=
  { id := "t1", documentId := none, subject := "physics", mainTopic := "Forces",
    subtopic := none, description := some "Forces and motion" }

/-- Subtopic row for Forces / Friction. -/
def topicForcesFriction : Topic :=
  { id := "t2", documentId := none, subject := "physics", mainTopic := "Forces",
    subtopic := some "Friction", description := some "Subtopic: Friction" }

/-- Two-row taxonomy with the main-topic row first. -/
def forcesTaxonomy : List Topic := [topicForcesMain, topicForcesFriction]

/-- Extracted question with no `subtopicMatch`. -/
def questionNoSubMatch : ExtractedQuestion :=
  { questionText := "Define friction.", questionNumber := "2",
    topicMatch := "Forces", subtopicMatch := none, difficulty := "medium",
    marks := some 3, hasVectorDiagram := false }

/-- Witness for the amended claim C1: on a concrete well-formed taxonomy, a
question without `subtopicMatch` is persisted against the main-topic row. -/
theorem pastPaperQuestion_matching_witness :
    saveCategorizedQuestion forcesTaxonomy "q7" "d1" "phys_2019_s.pdf" questionNoSubMatch
        = some (categorizedQuestionRow "q7" "d1" "phys_2019_s.pdf" topicForcesMain
            questionNoSubMatch) ∧
    (categorizedQuestionRow "q7" "d1" "phys_2019_s.pdf" topicForcesMain
        questionNoSubMatch).topicId = some topicForcesMain.id ∧
    topicForcesMain ∈ forcesTaxonomy ∧
    topicForcesMain.mainTopic = questionNoSubMatch.topicMatch ∧
    (jsTruthyOptStr questionNoSubMatch.subtopicMatch = true →
        topicForcesMain.subtopic = questionNoSubMatch.subtopicMatch) ∧
    (jsTruthyOptStr questionNoSubMatch.subtopicMatch = false →
        topicForcesMain.subtopic = none) :=
  (pastPaperQuestion_matching forcesTaxonomy questionNoSubMatch "q7" "d1"
      "phys_2019_s.pdf" (by unfold MainRowsFirst; decide) (by decide)).1
    topicForcesMain (by decide)

/-- The `ExtractedTopic` interface of `services/openai.ts` (JSON returned by
the Categorization Service for a syllabus). -/
structure ExtractedTopic where
  mainTopic : String
  subtopics : List String
  description : String
  deriving DecidableEq

/-- Insert shape accepted by `MemStorage.createTopic`. -/
structure InsertTopic where
  documentId : Option String
  subject : String
  mainTopic : String
  subtopic : Option String
  description : Option String
  deriving DecidableEq

/-- `MemStorage.createTopic` of `storage.ts`: `documentId`, `subtopic` and
`description` go through the `x || null` normalisation. -/
def createTopicRow (id : String) (ins : InsertTopic) : Topic :=
  { id
    documentId := jsStrOrNone ins.documentId
    subject := ins.subject
    mainTopic := ins.mainTopic
    subtopic := jsStrOrNone ins.subtopic
    description := jsStrOrNone ins.description }

/-- The `storage.createTopic` calls that `processSyllabusAsync` issues for
one extracted topic: first the main-topic row with `subtopic: null`, then
one row per subtopic string with description `` `Subtopic: ${subtopic}` ``. -/
def syllabusTopicInserts (docId subject : String) (t : ExtractedTopic) :
    List InsertTopic :=
  { documentId := some docId, subject := subject, mainTopic := t.mainTopic,
    subtopic := none, description := some t.description } ::
  t.subtopics.map (fun s =>
    { documentId := some docId, subject := subject, mainTopic := t.mainTopic,
      subtopic := some s, description := some ("Subtopic: " ++ s) })

/-- Sequential persistence of a list of inserts, handing each
`createTopic` call a fresh identifier (`randomUUID` modelled by `idGen`). -/
def buildRows (idGen : Nat → String) : Nat → List InsertTopic → List Topic
  | _, [] => []
  | n, ins :: rest => createTopicRow (idGen n) ins :: buildRows idGen (n + 1) rest

/-- All Topic rows persisted by the save loop of `processSyllabusAsync`. -/
def syllabusTopicRows (idGen : Nat → String) (docId subject : String)
    (ts : List ExtractedTopic) : List Topic :=
  buildRows idGen 0 (ts.flatMap (syllabusTopicInserts docId subject))

/-- The `topicCount` and `subtopicCount` counters of `processSyllabusAsync`:
one increment per main topic, one per subtopic string. -/
def syllabusCounts (ts : List ExtractedTopic) : Nat × Nat :=
  ts.foldl
    (fun acc t => (acc.1 + 1, t.subtopics.foldl (fun n _ => n + 1) acc.2))
    (0, 0)

/-- The `result` payloads a completed job can carry (the `json` column,
restricted to the three shapes this code writes). -/
inductive JobResult where
  | syllabus (topicCount subtopicCount : Nat) (topics : List ExtractedTopic)
  | pastPapers (documentsProcessed questionsExtracted : Nat)
  | pdfGenerated (pdfId : String) (questionCount diagramCount : Nat)
  deriving DecidableEq

/-- Partial update passed to `storage.updateProcessingJob`: a field is
`some v` when the update object carries that key. -/
structure JobUpdate where
  status : Option String := none
  progress : Option Int := none
  statusMessage : Option String := none
  result : Option JobResult := none
  error : Option String := none
  deriving DecidableEq

/-- The final `updateProcessingJob` of a successful `processSyllabusAsync`
run. -/
def processSyllabusCompleted (ts : List ExtractedTopic) : JobUpdate :=
  { status := some "completed"
    progress := some 100
    statusMessage := some ("Successfully extracted " ++
      toString (syllabusCounts ts).1 ++ " topics and " ++
      toString (syllabusCounts ts).2 ++ " subtopics")
    result := some (JobResult.syllabus (syllabusCounts ts).1 (syllabusCounts ts).2 ts) }

/-- Counting fold equals adding the length. -/
theorem foldl_count_eq (l : List String) : ∀ b : Nat,
    l.foldl (fun n _ => n + 1) b = b + l.length := by
  induction l with
  | nil => intro b; simp
  | cons x t ih =>
    intro b
    rw [List.foldl_cons, ih (b + 1), List.length_cons]
    omega

/-- The loop counters compute the number of main topics and the total
number of subtopic strings. -/
theorem syllabusCounts_eq (ts : List ExtractedTopic) :
    syllabusCounts ts = (ts.length, (ts.map (fun t => t.subtopics.length)).sum) := by
  have hgen : ∀ (l : List ExtractedTopic) (a b : Nat),
      l.foldl (fun acc t => (acc.1 + 1, t.subtopics.foldl (fun n _ => n + 1) acc.2)) (a, b)
        = (a + l.length, b + (l.map (fun t => t.subtopics.length)).sum) := by
    intro l
    induction l with
    | nil => intro a b; simp
    | cons t rest ih =>
      intro a b
      rw [List.foldl_cons, ih, foldl_count_eq]
      simp [List.length_cons]
      constructor <;> omega
  have h := hgen ts 0 0
  simpa [syllabusCounts] using h

/-- The build loop creates one row per insert. -/
theorem buildRows_length (idGen : Nat → String) :
    ∀ (l : List InsertTopic) (n : Nat), (buildRows idGen n l).length = l.length := by
  intro l
  induction l with
  | nil => intro n; rfl
  | cons ins rest ih =>
    intro n
    rw [buildRows, List.length_cons, List.length_cons, ih]

/-- Projection of the built rows onto the columns the claim talks about. -/
theorem buildRows_map_proj (idGen : Nat → String) :
    ∀ (l : List InsertTopic) (n : Nat),
      (buildRows idGen n l).map (fun r => (r.mainTopic, r.subtopic, r.description))
        = l.map (fun ins =>
            (ins.mainTopic, jsStrOrNone ins.subtopic, jsStrOrNone ins.description)) := by
  intro l
  induction l with
  | nil => intro n; rfl
  | cons ins rest ih =>
    intro n
    rw [buildRows, List.map_cons, List.map_cons, ih]
    rfl

/-- A synthesized subtopic description is never the empty string. -/
theorem subtopicDesc_ne_empty (s : String) : ("Subtopic: " ++ s) ≠ "" := by
  intro h
  have hlen := congrArg String.length h
  rw [String.length_append] at hlen
  have h10 : ("Subtopic: ").length = 10 := by decide
  have h0 : ("" : String).length = 0 := by decide
  omega

/-- Claim C5: a syllabus run on N main topics with a total of Σk subtopic
strings persists exactly N + Σk Topic rows — per main topic one row with a
null subtopic and the service's description, plus one row per subtopic
string described as `Subtopic: <name>` — and the completed job's
`result.topicCount` and `result.subtopicCount` equal N and Σk.  The
hypotheses exclude empty description and subtopic strings, which the
`x || null` normalisation of `createTopic` would turn into nulls. -/
theorem syllabusAnalysis_topic_rows (idGen : Nat → String) (docId subject : String)
    (ts : List ExtractedTopic)
    (hdesc : ∀ t ∈ ts, t.description ≠ "")
    (hsub : ∀ t ∈ ts, ∀ s ∈ t.subtopics, s ≠ "") :
    (syllabusTopicRows idGen docId subject ts).length
        = ts.length + (ts.map (fun t => t.subtopics.length)).sum ∧
    (processSyllabusCompleted ts).result
        = some (JobResult.syllabus ts.length
            ((ts.map (fun t => t.subtopics.length)).sum) ts) ∧
    (syllabusTopicRows idGen docId subject ts).map
        (fun r => (r.mainTopic, r.subtopic, r.description))
      = ts.flatMap (fun t =>
          (t.mainTopic, (none : Option String), some t.description) ::
          t.subtopics.map (fun s =>
            (t.mainTopic, some s, some ("Subtopic: " ++ s)))) := by
  refine ⟨?_, ?_, ?_⟩
  · unfold syllabusTopicRows
    rw [buildRows_length]
    clear hdesc hsub
    induction ts with
    | nil => rfl
    | cons t rest ih =>
      rw [List.flatMap_cons, List.length_append, ih]
      simp [syllabusTopicInserts]
      omega
  · simp [processSyllabusCompleted, syllabusCounts_eq]
  · unfold syllabusTopicRows
    rw [buildRows_map_proj]
    induction ts with
    | nil => rfl
    | cons t rest ih =>
      rw [List.flatMap_cons, List.flatMap_cons, List.map_append]
      have hd : t.description ≠ "" := hdesc t (List.mem_cons_self t rest)
      have hhead : (syllabusTopicInserts docId subject t).map
          (fun ins => (ins.mainTopic, jsStrOrNone ins.subtopic, jsStrOrNone ins.description))
          = (t.mainTopic, (none : Option String), some t.description) ::
            t.subtopics.map (fun s =>
              (t.mainTopic, some s, some ("Subtopic: " ++ s))) := by
        unfold syllabusTopicInserts
        rw [List.map_cons, List.map_map]
        congr 1
        · simp [jsStrOrNone, hd]
        · refine List.map_congr_left ?_
          intro s hs
          have hne : s ≠ "" := hsub t (List.mem_cons_self t rest) s hs
          simp [jsStrOrNone, hne, subtopicDesc_ne_empty s]
      rw [hhead]
      congr 1
      exact ih (fun u hu => hdesc u (List.mem_cons_of_mem t hu))
        (fun u hu => hsub u (List.mem_cons_of_mem t hu))

/-- Two extracted topics with three subtopic strings in total. -/
def demoSyllabusTopics : List ExtractedTopic :=
  [{ mainTopic := "Waves", subtopics := ["Sound", "Light"],
     description := "Wave phenomena" },
   { mainTopic := "Forces", subtopics := ["Friction"],
     description := "Forces and motion" }]

/-- Witness for claim C5 on a concrete syllabus-analysis output. -/
theorem syllabusAnalysis_topic_rows_witness :
    (syllabusTopicRows (fun n => "topic-" ++ toString n) "d1" "physics"
        demoSyllabusTopics).length
        = demoSyllabusTopics.length +
          (demoSyllabusTopics.map (fun t => t.subtopics.length)).sum ∧
    (processSyllabusCompleted demoSyllabusTopics).result
        = some (JobResult.syllabus demoSyllabusTopics.length
            ((demoSyllabusTopics.map (fun t => t.subtopics.length)).sum)
            demoSyllabusTopics) ∧
    (syllabusTopicRows (fun n => "topic-" ++ toString n) "d1" "physics"
        demoSyllabusTopics).map (fun r => (r.mainTopic, r.subtopic, r.description))
      = demoSyllabusTopics.flatMap (fun t =>
          (t.mainTopic, (none : Option String), some t.description) ::
          t.subtopics.map (fun s =>
            (t.mainTopic, some s, some ("Subtopic: " ++ s)))) :=
  syllabusAnalysis_topic_rows (fun n => "topic-" ++ toString n) "d1" "physics"
    demoSyllabusTopics (by decide) (by decide)

/-- Row of the `processing_jobs` table; timestamps omitted. -/
structure ProcessingJob where
  id : String
  type : String
  status : Option String
  progress : Option Int
  statusMessage : Option String
  documentIds : Option (List String)
  result : Option JobResult
  error : Option String
  deriving DecidableEq

/-- Insert shape accepted by `MemStorage.createProcessingJob`. -/
structure InsertProcessingJob where
  type : String
  status : Option String := none
  progress : Option Int := none
  statusMessage : Option String := none
  documentIds : Option (List String) := none
  result : Option JobResult := none
  error : Option String := none
  deriving DecidableEq

/-- `MemStorage.createProcessingJob` of `storage.ts`: the nullable columns
go through `x || null`.  For `documentIds` and `result` the values are a
JavaScript array and object, which are always truthy, so `x || null` is the
identity on present values; but for `progress` the check is numeric
falsiness, so an insert with `progress: 0` is stored with a null
progress. -/
def createProcessingJobRow (id : String) (ins : InsertProcessingJob) : ProcessingJob :=
  { id
    type := ins.type
    status := jsStrOrNone ins.status
    progress := jsIntOrNone ins.progress
    statusMessage := jsStrOrNone ins.statusMessage
    documentIds := ins.documentIds
    result := ins.result
    error := jsStrOrNone ins.error }

/-- The spread `{ ...job, ...updates }` of `MemStorage.updateProcessingJob`:
a key present in the update object overrides the stored value, an absent
key leaves it. -/
def applyJobUpdate (job : ProcessingJob) (u : JobUpdate) : ProcessingJob :=
  { job with
    status := match u.status with | some s => some s | none => job.status
    progress := match u.progress with | some p => some p | none => job.progress
    statusMessage :=
      match u.statusMessage with | some m => some m | none => job.statusMessage
    result := match u.result with | some r => some r | none => job.result
    error := match u.error with | some e => some e | none => job.error }

/-- The `jobData` that the `/api/process-syllabus` handler passes to
`createProcessingJob` (routes.ts lines 134-140); `/api/process-pastpapers`
and `/api/generate-pdf` pass the same `status`/`progress` shape. -/
def routesSyllabusJobData (docIds : List String) : InsertProcessingJob :=
  { type := "syllabus_analysis"
    status := some "processing"
    progress := some 0
    statusMessage := some "Extracting topics from syllabus..."
    documentIds := some docIds }

/-- Claim C4 evaluated on the code: every job-creating route passes
`progress: 0`, and `insertJob.progress || null` treats 0 as falsy, so the
job row is stored with `progress = null` immediately after
`createProcessingJob` — not an integer between 0 and 100 as the claim and
the schema (`integer("progress").default(0) // 0-100`) require. -/
theorem createProcessingJob_zero_progress_stored_null (jid : String)
    (docIds : List String) :
    (createProcessingJobRow jid (routesSyllabusJobData docIds)).progress = none ∧
    (routesSyllabusJobData docIds).progress = some 0 := by
  constructor <;> rfl

/-- Row of the `documents` table; the free-form `metadata` column and the
timestamp are omitted. -/
structure DocumentRow where
  id : String
  filename : String
  type : String
  subject : Option String
  content : Option String
  processingStatus : Option String
  deriving DecidableEq

/-- Row of the `generated_pdfs` table; the `configuration` column and the
timestamp are omitted. -/
structure GeneratedPdfRow where
  id : String
  filename : String
  topicId : Option String
  subject : String
  mainTopic : String
  subtopic : Option String
  questionCount : Nat
  diagramCount : Nat
  fileSize : String
  filePath : String
  deriving DecidableEq

/-- Lookup in a JavaScript `Map` modelled as an insertion-ordered
association list. -/
def mapGet {α : Type} (m : List (String × α)) (k : String) : Option α :=
  (m.find? (fun p => p.1 == k)).map (fun p => p.2)

/-- `Map.prototype.set`: replace in place when the key exists, append
otherwise. -/
def mapSet {α : Type} (m : List (String × α)) (k : String) (v : α) :
    List (String × α) :=
  if m.any (fun p => p.1 == k) then
    m.map (fun p => if p.1 == k then (k, v) else p)
  else m ++ [(k, v)]

/-- The five private maps of `MemStorage`. -/
structure MemStorage where
  documents : List (String × DocumentRow)
  topics : List (String × Topic)
  questions : List (String × Question)
  generatedPdfs : List (String × GeneratedPdfRow)
  processingJobs : List (String × ProcessingJob)
  deriving DecidableEq

/-- `MemStorage.updateProcessingJob`: look the job up; when absent, do
nothing; when present, store the spread-merged job. -/
def MemStorage.updateProcessingJob (s : MemStorage) (id : String) (u : JobUpdate) :
    MemStorage :=
  match mapGet s.processingJobs id with
  | none => s
  | some job =>
      { s with processingJobs := mapSet s.processingJobs id (applyJobUpdate job u) }

/-- `MemStorage.updateDocumentStatus`: mutate `processingStatus` when the
document exists, otherwise do nothing. -/
def MemStorage.updateDocumentStatus (s : MemStorage) (id status : String) :
    MemStorage :=
  match mapGet s.documents id with
  | none => s
  | some doc =>
      { s with documents := mapSet s.documents id { doc with processingStatus := some status } }

/-- `MemStorage.updateDocumentContent`: mutate `content` when the document
exists, otherwise do nothing. -/
def MemStorage.updateDocumentContent (s : MemStorage) (id content : String) :
    MemStorage :=
  match mapGet s.documents id with
  | none => s
  | some doc =>
      { s with documents := mapSet s.documents id { doc with content := some content } }

/-- `MemStorage.createProcessingJob` including the map insertion. -/
def MemStorage.createProcessingJob (s : MemStorage) (id : String)
    (ins : InsertProcessingJob) : ProcessingJob × MemStorage :=
  let job := createProcessingJobRow id ins
  (job, { s with processingJobs := mapSet s.processingJobs id job })

/-- Claim C10: updating a processing job, a document's status, or a
document's content under an id that is not in the store returns normally
and leaves the entire store unchanged. -/
theorem storage_update_missing_id_noop (s : MemStorage)
    (jobId docId1 docId2 status content : String) (u : JobUpdate)
    (hj : mapGet s.processingJobs jobId = none)
    (hd1 : mapGet s.documents docId1 = none)
    (hd2 : mapGet s.documents docId2 = none) :
    s.updateProcessingJob jobId u = s ∧
    s.updateDocumentStatus docId1 status = s ∧
    s.updateDocumentContent docId2 content = s := by
  refine ⟨?_, ?_, ?_⟩
  · unfold MemStorage.updateProcessingJob
    rw [hj]
  · unfold MemStorage.updateDocumentStatus
    rw [hd1]
  · unfold MemStorage.updateDocumentContent
    rw [hd2]

/-- Store holding one document and one processing job. -/
def demoStore : MemStorage :=
  { documents := [("doc-1",
      { id := "doc-1", filename := "syllabus.pdf", type := "syllabus",
        subject := some "physics", content := none,
        processingStatus := some "pending" })]
    topics := []
    questions := []
    generatedPdfs := []
    processingJobs := [("job-1",
      createProcessingJobRow "job-1" (routesSyllabusJobData ["doc-1"]))] }

/-- Witness for claim C10: updates against ids absent from a concrete
non-empty store leave it untouched. -/
theorem storage_update_missing_id_noop_witness :
    demoStore.updateProcessingJob "job-2" { progress := some 10 } = demoStore ∧
    demoStore.updateDocumentStatus "doc-2" "processing" = demoStore ∧
    demoStore.updateDocumentContent "doc-9" "text" = demoStore :=
  storage_update_missing_id_noop demoStore "job-2" "doc-2" "doc-9" "processing"
    "text" { progress := some 10 } (by decide) (by decide) (by decide)

/-- View of a document as the past-paper loop sees it: the stored row's
`content` plus the `extractedText` property that `processDocumentAsync`
attaches to the in-memory object. -/
structure DocInfo where
  id : String
  filename : String
  extractedText : Option String
  content : Option String
  deriving DecidableEq

/-- JavaScript falsiness of a nullable string (`!x`). -/
def jsFalsyStr : Option String → Bool
  | none => true
  | some s => s == ""

/-- The skip test `!document.extractedText ||
document.extractedText.trim().length === 0`. -/
def textMissing : Option String → Bool
  | none => true
  | some s => s == "" || trimmedLength s == 0

/-- The salvage test of the loop: `document.content &&
document.content.trim().length > 50 && !document.extractedText`, in which
case the document's persisted content is used as its text. -/
def salvageText (d : DocInfo) : Option String :=
  match d.content with
  | none => none
  | some c =>
      if !(c == "") && (decide (trimmedLength c > 50)) && jsFalsyStr d.extractedText
      then some c
      else none

/-- The text the loop ends up analysing for a document: its
`extractedText` when usable, otherwise the salvaged `content`, otherwise
nothing (the document is skipped). -/
def ppEffectiveText (d : DocInfo) : Option String :=
  if textMissing d.extractedText then salvageText d else d.extractedText

/-- Per-question persistence over one service response: `ids` numbers the
fresh row ids; unmatched questions produce no row. -/
def ppSaveRows (topics : List Topic) (idGen : Nat → String)
    (docId filename : String) (qs : List ExtractedQuestion) : List Question :=
  (qs.enum).filterMap
    (fun p => saveCategorizedQuestion topics (idGen p.1) docId filename p.2)

/-- Outcome of the loop body for one document. -/
inductive DocOutcome where
  | skippedEmpty
  | skippedError
  | failed (msg : String)
  | processed (rows : List Question)
  deriving DecidableEq

/-- The body of the per-document loop of `processPastPapersAsync`: skip on
missing text, skip on the `[PDF Processing Error` placeholder, otherwise
call the Categorization Service (whose failure is caught per document) and
persist the matched questions. -/
def ppDocOutcome (svc : String → Except String (List ExtractedQuestion))
    (topics : List Topic) (idGen : Nat → String) (d : DocInfo) : DocOutcome :=
  match ppEffectiveText d with
  | none => .skippedEmpty
  | some text =>
      if strContainsSub text "[PDF Processing Error" then .skippedError
      else
        match svc text with
        | .error m => .failed m
        | .ok qs => .processed (ppSaveRows topics idGen d.id d.filename qs)

/-- `processedDocuments` is incremented for skipped and successful
documents, but not for a document whose service call threw. -/
def counted : DocOutcome → Bool
  | .failed _ => false
  | _ => true

/-- Question rows contributed by one document. -/
def outcomeRows : DocOutcome → List Question
  | .processed rows => rows
  | _ => []

/-- First update of `processPastPapersAsync` (no status key). -/
def ppU10 : JobUpdate :=
  { progress := some 10, statusMessage := some "Loading available topics..." }

/-- Second update of `processPastPapersAsync`. -/
def ppU20 (n : Nat) : JobUpdate :=
  { progress := some 20,
    statusMessage := some ("Processing " ++ toString n ++ " past paper documents...") }

/-- Per-document progress update: `20 + Math.floor((processedDocuments /
total) * 60)`, modelled with exact integer division (the double-precision
computation rounds to the same floor for the list sizes involved, and is
monotone in `processedDocuments` in any case). -/
def ppDocUpdate (n : Nat) (d : DocInfo) (k : Nat) : JobUpdate :=
  { progress := some (20 + ((k * 60 / n : Nat) : Int))
    statusMessage := some ("Analyzing " ++ d.filename ++ "... (" ++
      toString (k + 1) ++ "/" ++ toString n ++ ")") }

/-- Final update of a completed `processPastPapersAsync` run. -/
def ppCompleted (k tq : Nat) : JobUpdate :=
  { status := some "completed"
    progress := some 100
    statusMessage := some ("Successfully categorized " ++ toString tq ++
      " questions from " ++ toString k ++ " documents")
    result := some (JobResult.pastPapers k tq) }

/-- The per-document loop: emits one progress update per document, threads
the `processedDocuments` counter, and accumulates the persisted rows. -/
def ppLoop (svc : String → Except String (List ExtractedQuestion))
    (topics : List Topic) (idGen : Nat → String) (n : Nat) :
    List DocInfo → Nat → List JobUpdate × Nat × List Question
  | [], k => ([], k, [])
  | d :: ds, k =>
      let o := ppDocOutcome svc topics idGen d
      let rest := ppLoop svc topics idGen n ds (if counted o then k + 1 else k)
      (ppDocUpdate n d k :: rest.1, rest.2.1, outcomeRows o ++ rest.2.2)

/-- Updates emitted by the loop over the whole document list. -/
def ppLoopUpdates (svc : String → Except String (List ExtractedQuestion))
    (topics : List Topic) (idGen : Nat → String) (docs : List DocInfo) :
    List JobUpdate :=
  (ppLoop svc topics idGen docs.length docs 0).1

/-- Final `processedDocuments` counter of the run. -/
def ppProcessed (svc : String → Except String (List ExtractedQuestion))
    (topics : List Topic) (idGen : Nat → String) (docs : List DocInfo) : Nat :=
  (ppLoop svc topics idGen docs.length docs 0).2.1

/-- All Question rows persisted by the run. -/
def ppRows (svc : String → Except String (List ExtractedQuestion))
    (topics : List Topic) (idGen : Nat → String) (docs : List DocInfo) :
    List Question :=
  (ppLoop svc topics idGen docs.length docs 0).2.2

/-- The full update trace of `processPastPapersAsync`.  Outside the
per-document `try`, the procedure only performs in-memory `MemStorage`
operations, which cannot throw, so the outer catch handler (which would
set `status: 'error', progress: 0`) is unreachable and the trace always
ends with the completed update. -/
def processPastPapersUpdates (svc : String → Except String (List ExtractedQuestion))
    (topics : List Topic) (idGen : Nat → String) (docs : List DocInfo) :
    List JobUpdate :=
  ppU10 :: ppU20 docs.length ::
    (ppLoopUpdates svc topics idGen docs ++
      [ppCompleted (ppProcessed svc topics idGen docs)
        (ppRows svc topics idGen docs).length])

/-- First update of `processSyllabusAsync`. -/
def sylU10 : JobUpdate :=
  { status := some "processing", progress := some 10,
    statusMessage := some "Reading syllabus documents..." }

/-- Second update of `processSyllabusAsync`. -/
def sylU30 : JobUpdate :=
  { progress := some 30, statusMessage := some "Analyzing syllabus content with AI..." }

/-- Third update of `processSyllabusAsync`. -/
def sylU60 : JobUpdate :=
  { progress := some 60, statusMessage := some "Saving topics and subtopics..." }

/-- The catch handler of `processSyllabusAsync`: status, error and message
only — no progress key. -/
def sylErrUpdate (m : String) : JobUpdate :=
  { status := some "error", error := some m,
    statusMessage := some "Failed to process syllabus" }

/-- The update trace of `processSyllabusAsync`, driven by the two external
calls that can throw: reading/re-extracting the documents' content
(`combineO`, yielding the combined text) and the Categorization Service
(`ai`).  The store operations between checkpoints are in-memory and total. -/
def processSyllabusUpdates (combineO : Except String String)
    (ai : String → Except String (List ExtractedTopic)) : List JobUpdate :=
  sylU10 ::
    (match combineO with
     | .error m => [sylErrUpdate m]
     | .ok text =>
        sylU30 ::
          (match ai text with
           | .error m => [sylErrUpdate m]
           | .ok ts => [sylU60, processSyllabusCompleted ts]))

/-- Topic rows inserted by a `processSyllabusAsync` run: none unless both
external calls succeed, in which case the save loop runs to completion
(`createTopic` is an in-memory map insertion and cannot throw). -/
def processSyllabusNewTopics (idGen : Nat → String) (docId subject : String)
    (combineO : Except String String)
    (ai : String → Except String (List ExtractedTopic)) : List Topic :=
  match combineO with
  | .error _ => []
  | .ok text =>
      match ai text with
      | .error _ => []
      | .ok ts => syllabusTopicRows idGen docId subject ts

/-- First update of `generatePdfAsync`. -/
def pdfU25 : JobUpdate :=
  { status := some "processing", progress := some 25,
    statusMessage := some "Organizing questions..." }

/-- Second update of `generatePdfAsync`. -/
def pdfU50 : JobUpdate :=
  { progress := some 50, statusMessage := some "Extracting diagrams..." }

/-- Third update of `generatePdfAsync`, after the generator returned. -/
def pdfU75 : JobUpdate :=
  { progress := some 75, statusMessage := some "Finalizing PDF..." }

/-- The catch handler of `generatePdfAsync`: no progress key. -/
def pdfErrUpdate (m : String) : JobUpdate :=
  { status := some "error", error := some m,
    statusMessage := some "PDF generation failed" }

/-- Final update of a completed `generatePdfAsync` run. -/
def pdfCompletedUpdate (pdfId : String) (res : GeneratedPdfResultM) : JobUpdate :=
  { status := some "completed", progress := some 100,
    statusMessage := some "PDF generated successfully",
    result := some (JobResult.pdfGenerated pdfId res.questionCount res.diagramCount) }

/-- The update trace of `generatePdfAsync`, driven by the file-writing
generator call (`genO`), the only step that can throw. -/
def generatePdfUpdates (genO : Except String GeneratedPdfResultM) (pdfId : String) :
    List JobUpdate :=
  pdfU25 :: pdfU50 ::
    (match genO with
     | .error m => [pdfErrUpdate m]
     | .ok res => [pdfU75, pdfCompletedUpdate pdfId res])

/-- The `jobData` of `/api/process-pastpapers`. -/
def routesPastPapersJobData (docIds : List String) : InsertProcessingJob :=
  { type := "question_extraction"
    status := some "processing"
    progress := some 0
    statusMessage := some "Categorizing questions from past papers..."
    documentIds := some docIds }

/-- The job-creation argument of `/api/generate-pdf`. -/
def routesPdfJobData (topicId : String) : InsertProcessingJob :=
  { type := "pdf_generation"
    status := some "processing"
    progress := some 0
    statusMessage := some "Starting PDF generation..."
    documentIds := some [topicId] }

/-- Successive values of the job's `progress` column as the owning
procedure applies its updates, starting from the created row. -/
def progressView (init : ProcessingJob) (us : List JobUpdate) : List (Option Int) :=
  (us.scanl applyJobUpdate init).map (fun j => j.progress)

/-- Successive values of the job's `status` column. -/
def statusView (init : ProcessingJob) (us : List JobUpdate) : List (Option String) :=
  (us.scanl applyJobUpdate init).map (fun j => j.status)

/-- Progress comparison: an unset progress may be followed by anything; a
set progress never goes back down or back to unset. -/
def progressLeB : Option Int → Option Int → Bool
  | some x, some y => x ≤ y
  | none, _ => true
  | some _, none => false

/-- Propositional form of `progressLeB`. -/
def progressLe (a b : Option Int) : Prop := progressLeB a b = true

/-- The two terminal job statuses. -/
def isTerminalStatus (s : Option String) : Bool :=
  s == some "completed" || s == some "error"

/-- Once terminal, the status never changes. -/
def statusStable (s s' : Option String) : Prop :=
  isTerminalStatus s = true → s' = s

/-- Well-behaved update trace: progress never decreases along the job
states, and a terminal status is never transitioned away from. -/
def JobTraceOk (init : ProcessingJob) (us : List JobUpdate) : Prop :=
  List.Chain' progressLe (progressView init us) ∧
  List.Chain' statusStable (statusView init us)

/-- Unfolding of `progressView` on an empty trace. -/
theorem progressView_nil (init : ProcessingJob) :
    progressView init [] = [init.progress] := rfl

/-- Unfolding of `progressView` on a cons. -/
theorem progressView_cons (init : ProcessingJob) (u : JobUpdate) (us : List JobUpdate) :
    progressView init (u :: us)
      = init.progress :: progressView (applyJobUpdate init u) us := rfl

/-- Unfolding of `statusView` on an empty trace. -/
theorem statusView_nil (init : ProcessingJob) :
    statusView init [] = [init.status] := rfl

/-- Unfolding of `statusView` on a cons. -/
theorem statusView_cons (init : ProcessingJob) (u : JobUpdate) (us : List JobUpdate) :
    statusView init (u :: us)
      = init.status :: statusView (applyJobUpdate init u) us := rfl

/-- When every update carries a progress value, the state sequence is the
initial progress followed by the updates' progress values. -/
theorem progressView_all_some (us : List JobUpdate) :
    ∀ init : ProcessingJob, (∀ u ∈ us, (u.progress).isSome = true) →
      progressView init us = init.progress :: us.map (fun u => u.progress) := by
  induction us with
  | nil => intro init _; rfl
  | cons u tail ih =>
    intro init h
    rw [progressView_cons, ih _ (fun v hv => h v (List.mem_cons_of_mem u hv)),
      List.map_cons]
    rcases Option.isSome_iff_exists.1 (h u (List.mem_cons_self u tail)) with ⟨p, hp⟩
    simp [applyJobUpdate, hp]

/-- A trace whose non-final updates only ever write the `processing`
status (or no status at all), applied to a job in a non-terminal state,
never transitions away from a terminal status. -/
theorem statusView_stable_aux :
    ∀ (us : List JobUpdate) (init : ProcessingJob),
      isTerminalStatus init.status = false →
      (∀ u ∈ us.dropLast, u.status = none ∨ u.status = some "processing") →
      List.Chain' statusStable (statusView init us) := by
  intro us
  induction us with
  | nil =>
    intro init _ _
    exact List.chain'_singleton _
  | cons u tail ih =>
    intro init hinit hdrop
    rw [statusView_cons]
    refine List.chain'_cons'.2 ⟨?_, ?_⟩
    · intro y _ hterm
      rw [hinit] at hterm
      simp at hterm
    · cases tail with
      | nil => exact List.chain'_singleton _
      | cons v vs =>
        have hu : u.status = none ∨ u.status = some "processing" := by
          apply hdrop
          rw [List.dropLast_cons₂]
          exact List.mem_cons_self _ _
        have hinit' : isTerminalStatus (applyJobUpdate init u).status = false := by
          rcases hu with hu | hu
          · simpa [applyJobUpdate, hu] using hinit
          · simp [applyJobUpdate, hu]
            decide
        refine ih _ hinit' ?_
        intro w hw
        apply hdrop
        rw [List.dropLast_cons₂]
        exact List.mem_cons_of_mem _ hw

/-- Every update emitted by the per-document loop carries no status key. -/
theorem ppLoop_status_none (svc : String → Except String (List ExtractedQuestion))
    (topics : List Topic) (idGen : Nat → String) (n : Nat) :
    ∀ (ds : List DocInfo) (k : Nat), ∀ u ∈ (ppLoop svc topics idGen n ds k).1,
      u.status = none := by
  intro ds
  induction ds with
  | nil =>
    intro k u hu
    simp [ppLoop] at hu
  | cons d t ih =>
    intro k u hu
    simp only [ppLoop] at hu
    rcases List.mem_cons.1 hu with rfl | hu'
    · rfl
    · exact ih _ u hu'

/-- Every update emitted by the per-document loop carries a progress value. -/
theorem ppLoop_progress_isSome (svc : String → Except String (List ExtractedQuestion))
    (topics : List Topic) (idGen : Nat → String) (n : Nat) :
    ∀ (ds : List DocInfo) (k : Nat), ∀ u ∈ (ppLoop svc topics idGen n ds k).1,
      (u.progress).isSome = true := by
  intro ds
  induction ds with
  | nil =>
    intro k u hu
    simp [ppLoop] at hu
  | cons d t ih =>
    intro k u hu
    simp only [ppLoop] at hu
    rcases List.mem_cons.1 hu with rfl | hu'
    · rfl
    · exact ih _ u hu'

/-- The loop's progress values form a non-decreasing chain from any
starting value below the first checkpoint, and stay below the final 100. -/
theorem ppLoop_progress_chain (svc : String → Except String (List ExtractedQuestion))
    (topics : List Topic) (idGen : Nat → String) (n : Nat) :
    ∀ (ds : List DocInfo) (k : Nat) (p : Int),
      k + ds.length ≤ n → p ≤ 20 + ((k * 60 / n : Nat) : Int) →
      List.Chain' progressLe
        (some p :: ((ppLoop svc topics idGen n ds k).1.map (fun u => u.progress)
          ++ [some 100])) := by
  intro ds
  induction ds with
  | nil =>
    intro k p hk hp
    have hkn : k ≤ n := by simpa using hk
    have hdiv : k * 60 / n ≤ 60 := by
      rcases Nat.eq_zero_or_pos n with hn | hn
      · have hk0 : k = 0 := by omega
        subst hk0 hn
        simp
      · have h1 : k * 60 ≤ n * 60 := Nat.mul_le_mul_right 60 hkn
        have h2 : k * 60 / n ≤ n * 60 / n := Nat.div_le_div_right h1
        have h3 : n * 60 / n = 60 := Nat.mul_div_cancel_left 60 hn
        omega
    simp only [ppLoop, List.map_nil, List.nil_append]
    refine List.chain'_pair.2 ?_
    simp only [progressLe, progressLeB, decide_eq_true_eq]
    have hcast : ((k * 60 / n : Nat) : Int) ≤ 60 := by exact_mod_cast hdiv
    omega
  | cons d t ih =>
    intro k p hk hp
    simp only [ppLoop, List.map_cons, List.cons_append]
    refine List.chain'_cons.2 ⟨?_, ?_⟩
    · simp only [ppDocUpdate, progressLe, progressLeB, decide_eq_true_eq]
      exact hp
    · have hk1 : k + t.length + 1 ≤ n := by
        simp only [List.length_cons] at hk
        omega
      rcases hc : counted (ppDocOutcome svc topics idGen d) with _ | _
      · simp only [hc, Bool.false_eq_true, if_false]
        exact ih k (20 + ((k * 60 / n : Nat) : Int)) (by omega) (by omega)
      · simp only [hc, if_true]
        have hdivle : k * 60 / n ≤ (k + 1) * 60 / n :=
          Nat.div_le_div_right (Nat.mul_le_mul_right 60 (by omega))
        have hcast : ((k * 60 / n : Nat) : Int) ≤ (((k + 1) * 60 / n : Nat) : Int) := by
          exact_mod_cast hdivle
        exact ih (k + 1) (20 + ((k * 60 / n : Nat) : Int)) (by omega) (by omega)

/-- The loop's final counter adds one per counted (skipped or successful)
document. -/
theorem ppLoop_processed (svc : String → Except String (List ExtractedQuestion))
    (topics : List Topic) (idGen : Nat → String) (n : Nat) :
    ∀ (ds : List DocInfo) (k : Nat),
      (ppLoop svc topics idGen n ds k).2.1
        = k + (ds.filter (fun d => counted (ppDocOutcome svc topics idGen d))).length := by
  intro ds
  induction ds with
  | nil => intro k; simp [ppLoop]
  | cons d t ih =>
    intro k
    simp only [ppLoop]
    rcases hc : counted (ppDocOutcome svc topics idGen d) with _ | _
    · simp only [hc, Bool.false_eq_true, if_false, List.filter_cons, ih]
    · simp only [hc, if_true, List.filter_cons, ih]
      simp
      omega

/-- The rows the loop persists are exactly the per-document contributions,
in document order. -/
theorem ppLoop_rows (svc : String → Except String (List ExtractedQuestion))
    (topics : List Topic) (idGen : Nat → String) (n : Nat) :
    ∀ (ds : List DocInfo) (k : Nat),
      (ppLoop svc topics idGen n ds k).2.2
        = ds.flatMap (fun d => outcomeRows (ppDocOutcome svc topics idGen d)) := by
  intro ds
  induction ds with
  | nil => intro k; simp [ppLoop]
  | cons d t ih =>
    intro k
    simp only [ppLoop, List.flatMap_cons]
    rw [ih]


/-- Trace discipline of `processSyllabusAsync` for every oracle outcome. -/
theorem syllabusTraceOk (jid : String) (docIds : List String)
    (combineO : Except String String)
    (ai : String → Except String (List ExtractedTopic)) :
    JobTraceOk (createProcessingJobRow jid (routesSyllabusJobData docIds))
      (processSyllabusUpdates combineO ai) := by
  constructor
  · rcases combineO with m | text
    · rw [show processSyllabusUpdates (Except.error m) ai
          = [sylU10, sylErrUpdate m] from rfl]
      rw [progressView_cons, progressView_cons, progressView_nil]
      simp [applyJobUpdate, sylU10, sylErrUpdate, createProcessingJobRow,
        routesSyllabusJobData, jsIntOrNone, List.chain'_cons, progressLe, progressLeB]
    · rcases hai : ai text with m | ts
      · rw [show processSyllabusUpdates (Except.ok text) ai
            = [sylU10, sylU30, sylErrUpdate m] by
              simp [processSyllabusUpdates, hai]]
        rw [progressView_cons, progressView_cons, progressView_cons, progressView_nil]
        simp [applyJobUpdate, sylU10, sylU30, sylErrUpdate, createProcessingJobRow,
          routesSyllabusJobData, jsIntOrNone, List.chain'_cons, progressLe, progressLeB]
      · rw [show processSyllabusUpdates (Except.ok text) ai
            = [sylU10, sylU30, sylU60, processSyllabusCompleted ts] by
              simp [processSyllabusUpdates, hai]]
        rw [progressView_cons, progressView_cons, progressView_cons, progressView_cons,
          progressView_nil]
        simp [applyJobUpdate, sylU10, sylU30, sylU60, processSyllabusCompleted,
          createProcessingJobRow, routesSyllabusJobData, jsIntOrNone,
          List.chain'_cons, progressLe, progressLeB]
  · apply statusView_stable_aux
    · rfl
    · rcases combineO with m | text
      · rw [show processSyllabusUpdates (Except.error m) ai
            = [sylU10, sylErrUpdate m] from rfl]
        intro u hu
        simp only [List.dropLast] at hu
        simp at hu
        subst hu
        exact Or.inr rfl
      · rcases hai : ai text with m | ts
        · rw [show processSyllabusUpdates (Except.ok text) ai
              = [sylU10, sylU30, sylErrUpdate m] by
                simp [processSyllabusUpdates, hai]]
          intro u hu
          simp only [List.dropLast] at hu
          simp at hu
          rcases hu with rfl | rfl
          · exact Or.inr rfl
          · exact Or.inl rfl
        · rw [show processSyllabusUpdates (Except.ok text) ai
              = [sylU10, sylU30, sylU60, processSyllabusCompleted ts] by
                simp [processSyllabusUpdates, hai]]
          intro u hu
          simp only [List.dropLast] at hu
          simp at hu
          rcases hu with rfl | rfl | rfl
          · exact Or.inr rfl
          · exact Or.inl rfl
          · exact Or.inl rfl

/-- Trace discipline of `generatePdfAsync` for every oracle outcome. -/
theorem pdfTraceOk (jid topicId pdfId : String)
    (genO : Except String GeneratedPdfResultM) :
    JobTraceOk (createProcessingJobRow jid (routesPdfJobData topicId))
      (generatePdfUpdates genO pdfId) := by
  constructor
  · rcases genO with m | res
    · rw [show generatePdfUpdates (Except.error m) pdfId
          = [pdfU25, pdfU50, pdfErrUpdate m] from rfl]
      rw [progressView_cons, progressView_cons, progressView_cons, progressView_nil]
      simp [applyJobUpdate, pdfU25, pdfU50, pdfErrUpdate, createProcessingJobRow,
        routesPdfJobData, jsIntOrNone, List.chain'_cons, progressLe, progressLeB]
    · rw [show generatePdfUpdates (Except.ok res) pdfId
          = [pdfU25, pdfU50, pdfU75, pdfCompletedUpdate pdfId res] from rfl]
      rw [progressView_cons, progressView_cons, progressView_cons, progressView_cons,
        progressView_nil]
      simp [applyJobUpdate, pdfU25, pdfU50, pdfU75, pdfCompletedUpdate,
        createProcessingJobRow, routesPdfJobData, jsIntOrNone,
        List.chain'_cons, progressLe, progressLeB]
  · apply statusView_stable_aux
    · rfl
    · rcases genO with m | res
      · rw [show generatePdfUpdates (Except.error m) pdfId
            = [pdfU25, pdfU50, pdfErrUpdate m] from rfl]
        intro u hu
        simp only [List.dropLast] at hu
        simp at hu
        rcases hu with rfl | rfl
        · exact Or.inr rfl
        · exact Or.inl rfl
      · rw [show generatePdfUpdates (Except.ok res) pdfId
            = [pdfU25, pdfU50, pdfU75, pdfCompletedUpdate pdfId res] from rfl]
        intro u hu
        simp only [List.dropLast] at hu
        simp at hu
        rcases hu with rfl | rfl | rfl
        · exact Or.inr rfl
        · exact Or.inl rfl
        · exact Or.inl rfl

/-- Trace discipline of `processPastPapersAsync` for every oracle outcome
and document list. -/
theorem ppTraceOk (jid : String) (docIds : List String)
    (svc : String → Except String (List ExtractedQuestion))
    (topics : List Topic) (idGen : Nat → String) (docs : List DocInfo) :
    JobTraceOk (createProcessingJobRow jid (routesPastPapersJobData docIds))
      (processPastPapersUpdates svc topics idGen docs) := by
  constructor
  · have hsome : ∀ u ∈ processPastPapersUpdates svc topics idGen docs,
        (u.progress).isSome = true := by
      intro u hu
      unfold processPastPapersUpdates at hu
      rcases List.mem_cons.1 hu with rfl | hu
      · rfl
      rcases List.mem_cons.1 hu with rfl | hu
      · rfl
      rcases List.mem_append.1 hu with hu | hu
      · exact ppLoop_progress_isSome svc topics idGen docs.length docs 0 u hu
      · simp at hu
        subst hu
        rfl
    rw [progressView_all_some _ _ hsome]
    have hchain := ppLoop_progress_chain svc topics idGen docs.length docs 0 20
      (by omega) (by simp)
    unfold processPastPapersUpdates
    rw [List.map_cons, List.map_cons, List.map_append]
    have hinit : (createProcessingJobRow jid (routesPastPapersJobData docIds)).progress
        = none := rfl
    rw [hinit]
    refine List.chain'_cons.2 ⟨?_, ?_⟩
    · rfl
    refine List.chain'_cons.2 ⟨?_, ?_⟩
    · rfl
    have : (List.map (fun u => u.progress) [ppCompleted
        (ppProcessed svc topics idGen docs) (ppRows svc topics idGen docs).length])
        = [some 100] := rfl
    rw [this]
    exact hchain
  · apply statusView_stable_aux
    · rfl
    · intro u hu
      unfold processPastPapersUpdates at hu
      rw [show (ppU10 :: ppU20 docs.length ::
          (ppLoopUpdates svc topics idGen docs ++
            [ppCompleted (ppProcessed svc topics idGen docs)
              (ppRows svc topics idGen docs).length]))
          = (ppU10 :: ppU20 docs.length :: ppLoopUpdates svc topics idGen docs) ++
            [ppCompleted (ppProcessed svc topics idGen docs)
              (ppRows svc topics idGen docs).length] by simp] at hu
      rw [List.dropLast_concat] at hu
      rcases List.mem_cons.1 hu with rfl | hu
      · exact Or.inl rfl
      rcases List.mem_cons.1 hu with rfl | hu
      · exact Or.inl rfl
      exact Or.inl (ppLoop_status_none svc topics idGen docs.length docs 0 u hu)

/-- Claim C3: for every processing job and every update sequence applied by
the procedure that owns it — syllabus analysis, past-paper categorization,
or output assembly — under any outcome of the external calls, the job's
progress never decreases and a terminal status (`completed` or `error`) is
never transitioned away from. -/
theorem job_updates_monotone_and_terminal (jid topicId pdfId : String)
    (docIds : List String)
    (combineO : Except String String)
    (ai : String → Except String (List ExtractedTopic))
    (svc : String → Except String (List ExtractedQuestion))
    (topics : List Topic) (idGen : Nat → String) (docs : List DocInfo)
    (genO : Except String GeneratedPdfResultM) :
    JobTraceOk (createProcessingJobRow jid (routesSyllabusJobData docIds))
      (processSyllabusUpdates combineO ai) ∧
    JobTraceOk (createProcessingJobRow jid (routesPastPapersJobData docIds))
      (processPastPapersUpdates svc topics idGen docs) ∧
    JobTraceOk (createProcessingJobRow jid (routesPdfJobData topicId))
      (generatePdfUpdates genO pdfId) :=
  ⟨syllabusTraceOk jid docIds combineO ai,
   ppTraceOk jid docIds svc topics idGen docs,
   pdfTraceOk jid topicId pdfId genO⟩

/-- Sequential application of a procedure's updates to its job row
(`read-modify-write` via `updateProcessingJob`). -/
def runJob (init : ProcessingJob) (us : List JobUpdate) : ProcessingJob :=
  us.foldl applyJobUpdate init

/-- The topic store at the end of a `processSyllabusAsync` run: the
procedure only ever appends rows (`createTopic`), never deletes. -/
def processSyllabusFinalTopics (idGen : Nat → String) (docId subject : String)
    (combineO : Except String String)
    (ai : String → Except String (List ExtractedTopic))
    (store : List Topic) : List Topic :=
  store ++ processSyllabusNewTopics idGen docId subject combineO ai

/-- Claim C9: when a step of syllabus analysis throws, the job ends with
status `error`, its `error` field holds the exception's message, its
progress stays at the last checkpoint written before the exception (10 if
reading the documents failed, 30 if the Categorization Service failed), and
the topic store is not rolled back — in an error run nothing was inserted
yet, and in general the final store is the initial store plus the inserted
rows, with nothing removed. -/
theorem processSyllabus_error_handling (jid docId subject : String)
    (docIds : List String) (idGen : Nat → String) (store : List Topic)
    (combineO : Except String String)
    (ai : String → Except String (List ExtractedTopic)) :
    (∀ m, combineO = .error m →
      (runJob (createProcessingJobRow jid (routesSyllabusJobData docIds))
          (processSyllabusUpdates combineO ai)).status = some "error" ∧
      (runJob (createProcessingJobRow jid (routesSyllabusJobData docIds))
          (processSyllabusUpdates combineO ai)).error = some m ∧
      (runJob (createProcessingJobRow jid (routesSyllabusJobData docIds))
          (processSyllabusUpdates combineO ai)).progress = some 10 ∧
      processSyllabusFinalTopics idGen docId subject combineO ai store = store) ∧
    (∀ text m, combineO = .ok text → ai text = .error m →
      (runJob (createProcessingJobRow jid (routesSyllabusJobData docIds))
          (processSyllabusUpdates combineO ai)).status = some "error" ∧
      (runJob (createProcessingJobRow jid (routesSyllabusJobData docIds))
          (processSyllabusUpdates combineO ai)).error = some m ∧
      (runJob (createProcessingJobRow jid (routesSyllabusJobData docIds))
          (processSyllabusUpdates combineO ai)).progress = some 30 ∧
      processSyllabusFinalTopics idGen docId subject combineO ai store = store) ∧
    processSyllabusFinalTopics idGen docId subject combineO ai store
      = store ++ processSyllabusNewTopics idGen docId subject combineO ai := by
  refine ⟨?_, ?_, rfl⟩
  · intro m hm
    subst hm
    refine ⟨rfl, rfl, rfl, ?_⟩
    simp [processSyllabusFinalTopics, processSyllabusNewTopics]
  · intro text m hc hai
    subst hc
    refine ⟨?_, ?_, ?_, ?_⟩
    · simp [runJob, processSyllabusUpdates, hai, applyJobUpdate, sylU10, sylU30,
        sylErrUpdate]
    · simp [runJob, processSyllabusUpdates, hai, applyJobUpdate, sylU10, sylU30,
        sylErrUpdate]
    · simp [runJob, processSyllabusUpdates, hai, applyJobUpdate, sylU10, sylU30,
        sylErrUpdate]
    · simp [processSyllabusFinalTopics, processSyllabusNewTopics, hai]

/-- Categorization-service oracle that returns no topics. -/
def aiNoTopics : String → Except String (List ExtractedTopic) := fun _ => .ok []

/-- Witness for claim C9: a concrete run whose document-reading step throws
ends in `error` with the message recorded, progress stuck at 10, and the
topic store untouched. -/
theorem processSyllabus_error_handling_witness :
    (runJob (createProcessingJobRow "job-9" (routesSyllabusJobData ["doc-1"]))
        (processSyllabusUpdates (Except.error "ENOENT: no such file") aiNoTopics)).status
        = some "error" ∧
    (runJob (createProcessingJobRow "job-9" (routesSyllabusJobData ["doc-1"]))
        (processSyllabusUpdates (Except.error "ENOENT: no such file") aiNoTopics)).error
        = some "ENOENT: no such file" ∧
    (runJob (createProcessingJobRow "job-9" (routesSyllabusJobData ["doc-1"]))
        (processSyllabusUpdates (Except.error "ENOENT: no such file") aiNoTopics)).progress
        = some 10 ∧
    processSyllabusFinalTopics (fun n => "id-" ++ toString n) "doc-1" "physics"
        (Except.error "ENOENT: no such file") aiNoTopics [topicWavesMain]
        = [topicWavesMain] :=
  (processSyllabus_error_handling "job-9" "doc-1" "physics" ["doc-1"]
      (fun n => "id-" ++ toString n) [topicWavesMain]
      (Except.error "ENOENT: no such file") aiNoTopics).1
    "ENOENT: no such file" rfl

/-- Main-topic row for Motion. -/
def topicMotionMain : Topic :=
  { id := "t5", documentId := none, subject := "physics", mainTopic := "Motion",
    subtopic := none, description := some "Kinematics and dynamics" }

/-- Extracted question matching the Motion topic. -/
def questionMotion : ExtractedQuestion :=
  { questionText := "Compute the range of the projectile.", questionNumber := "3",
    topicMatch := "Motion", subtopicMatch := none, difficulty := "hard",
    marks := some 4, hasVectorDiagram := true }

/-- Categorization-service oracle returning one Motion question. -/
def svcOneMotionQuestion : String → Except String (List ExtractedQuestion) :=
  fun _ => .ok [questionMotion]

/-- Document whose `extractedText` is missing but whose persisted `content`
is longer than 50 characters. -/
def docSalvageable : DocInfo :=
  { id := "doc-s", filename := "phys_2019_s.pdf", extractedText := none,
    content := some "A projectile is launched at thirty degrees above the horizontal plane." }

/-- Claim C7 counterexample: the claim says a document whose extracted text
is empty is skipped with no Question rows created from it; but when the
document's persisted `content` is longer than 50 characters the loop uses
that content as the text instead and persists the categorized questions. -/
theorem processPastPapers_skip_claim_false :
    docSalvageable.extractedText = none ∧
    (outcomeRows (ppDocOutcome svcOneMotionQuestion [topicMotionMain]
        (fun _ => "q-new") docSalvageable)).length = 1 := by
  constructor
  · rfl
  · decide

/-- Claim C7 as amended: a document whose extracted text is missing, empty or
whitespace-only AND not salvageable (no persisted content longer than 50
trimmed characters while the extracted text is absent or empty), or whose
effective text carries the `[PDF Processing Error` placeholder, is skipped
without failing the job: it contributes no Question rows, it is still
counted, the run's `documentsProcessed` counts exactly the skipped and
successful documents, and the trace still ends with the completed update. -/
theorem processPastPapers_skip (svc : String → Except String (List ExtractedQuestion))
    (topics : List Topic) (idGen : Nat → String) (docs : List DocInfo) (d : DocInfo)
    (hd : d ∈ docs)
    (hskip : (textMissing d.extractedText = true ∧ salvageText d = none) ∨
             (∃ s, ppEffectiveText d = some s ∧
                strContainsSub s "[PDF Processing Error" = true)) :
    outcomeRows (ppDocOutcome svc topics idGen d) = [] ∧
    counted (ppDocOutcome svc topics idGen d) = true ∧
    ppRows svc topics idGen docs
        = docs.flatMap (fun x => outcomeRows (ppDocOutcome svc topics idGen x)) ∧
    ppProcessed svc topics idGen docs
        = (docs.filter (fun x => counted (ppDocOutcome svc topics idGen x))).length ∧
    d ∈ docs.filter (fun x => counted (ppDocOutcome svc topics idGen x)) ∧
    (processPastPapersUpdates svc topics idGen docs).getLast?
        = some (ppCompleted (ppProcessed svc topics idGen docs)
            (ppRows svc topics idGen docs).length) := by
  have houtcome : ppDocOutcome svc topics idGen d = DocOutcome.skippedEmpty ∨
      ppDocOutcome svc topics idGen d = DocOutcome.skippedError := by
    rcases hskip with ⟨hmiss, hsalv⟩ | ⟨s, hs, hcontains⟩
    · left
      unfold ppDocOutcome ppEffectiveText
      rw [hmiss, if_pos rfl, hsalv]
    · right
      unfold ppDocOutcome
      rw [hs]
      simp [hcontains]
  have hrows : outcomeRows (ppDocOutcome svc topics idGen d) = [] := by
    rcases houtcome with h | h
    · rw [h]; rfl
    · rw [h]; rfl
  have hcount : counted (ppDocOutcome svc topics idGen d) = true := by
    rcases houtcome with h | h
    · rw [h]; rfl
    · rw [h]; rfl
  refine ⟨hrows, hcount, ?_, ?_, ?_, ?_⟩
  · exact ppLoop_rows svc topics idGen docs.length docs 0
  · have h := ppLoop_processed svc topics idGen docs.length docs 0
    simpa [ppProcessed] using h
  · exact List.mem_filter.2 ⟨hd, hcount⟩
  · unfold processPastPapersUpdates
    rw [show (ppU10 :: ppU20 docs.length ::
        (ppLoopUpdates svc topics idGen docs ++
          [ppCompleted (ppProcessed svc topics idGen docs)
            (ppRows svc topics idGen docs).length]))
        = (ppU10 :: ppU20 docs.length :: ppLoopUpdates svc topics idGen docs) ++
          [ppCompleted (ppProcessed svc topics idGen docs)
            (ppRows svc topics idGen docs).length] by simp]
    exact List.getLast?_concat _

/-- Document whose extracted text is whitespace only and whose content is
too short to salvage. -/
def docNoText : DocInfo :=
  { id := "doc-e", filename := "scan.pdf", extractedText := some "   ",
    content := some "short" }

/-- Witness for the amended claim C7 on a one-document run whose document
is skipped for missing text: no rows, still counted, job completed. -/
theorem processPastPapers_skip_witness :
    outcomeRows (ppDocOutcome svcOneMotionQuestion [topicMotionMain]
        (fun _ => "q-id") docNoText) = [] ∧
    counted (ppDocOutcome svcOneMotionQuestion [topicMotionMain]
        (fun _ => "q-id") docNoText) = true ∧
    ppRows svcOneMotionQuestion [topicMotionMain] (fun _ => "q-id") [docNoText]
        = [docNoText].flatMap (fun x => outcomeRows (ppDocOutcome svcOneMotionQuestion
            [topicMotionMain] (fun _ => "q-id") x)) ∧
    ppProcessed svcOneMotionQuestion [topicMotionMain] (fun _ => "q-id") [docNoText]
        = ([docNoText].filter (fun x => counted (ppDocOutcome svcOneMotionQuestion
            [topicMotionMain] (fun _ => "q-id") x))).length ∧
    docNoText ∈ [docNoText].filter (fun x => counted (ppDocOutcome svcOneMotionQuestion
        [topicMotionMain] (fun _ => "q-id") x)) ∧
    (processPastPapersUpdates svcOneMotionQuestion [topicMotionMain]
        (fun _ => "q-id") [docNoText]).getLast?
        = some (ppCompleted (ppProcessed svcOneMotionQuestion [topicMotionMain]
            (fun _ => "q-id") [docNoText])
            (ppRows svcOneMotionQuestion [topicMotionMain]
              (fun _ => "q-id") [docNoText]).length) :=
  processPastPapers_skip svcOneMotionQuestion [topicMotionMain] (fun _ => "q-id")
    [docNoText] docNoText (by decide) (Or.inl ⟨by decide, by decide⟩)
